import Mathlib

/-!
Verification of the virtual HID emulation layer declared in
src/core/input.hpp (namespace wolf::core::input).

The repository ships only the interface header: enumeration values and wire
constants are taken directly from the header, while the behaviour of the
member functions (whose definitions live outside the provided sources) is
modelled from the design specification, as indicated on each definition.
-/

namespace Wolf.Core.Input

namespace Joypad

/-- Wire constants of Joypad::CONTROLLER_TYPE (input.hpp lines 285-290). -/
def UNKNOWN : Nat := 0x00

def XBOX : Nat := 0x01

def PS : Nat := 0x02

def NINTENDO : Nat := 0x03

/-- Wire constants of Joypad::CONTROLLER_CAPABILITIES (input.hpp lines 292-301). -/
def ANALOG_TRIGGERS : Nat := 0x01

def RUMBLE : Nat := 0x02

def TRIGGER_RUMBLE : Nat := 0x04

def TOUCHPAD : Nat := 0x08

def ACCELEROMETER : Nat := 0x10

def GYRO : Nat := 0x20

def BATTERY : Nat := 0x40

def RGB_LED : Nat := 0x80

/-- Wire constants of Joypad::BATTERY_STATE (input.hpp lines 382-389); the
header spells the charging state CHARGHING. -/
def NOT_KNOWN : Nat := 0x00

def NOT_PRESENT : Nat := 0x01

def DISCHARGING : Nat := 0x02

def CHARGHING : Nat := 0x03

def NOT_CHARGING : Nat := 0x04

def FULL : Nat := 0x05

/-- Wire constants of Joypad::CONTROLLER_BTN (input.hpp lines 314-341). -/
def DPAD_UP : Nat := 0x0001

def DPAD_DOWN : Nat := 0x0002

def DPAD_LEFT : Nat := 0x0004

def DPAD_RIGHT : Nat := 0x0008

def START : Nat := 0x0010

def BACK : Nat := 0x0020

def HOME : Nat := 0x0400

def LEFT_STICK : Nat := 0x0040

def RIGHT_STICK : Nat := 0x0080

def LEFT_BUTTON : Nat := 0x0100

def RIGHT_BUTTON : Nat := 0x0200

def SPECIAL_FLAG : Nat := 0x0400

def PADDLE1_FLAG : Nat := 0x010000

def PADDLE2_FLAG : Nat := 0x020000

def PADDLE3_FLAG : Nat := 0x040000

def PADDLE4_FLAG : Nat := 0x080000

def TOUCHPAD_FLAG : Nat := 0x100000

def MISC_FLAG : Nat := 0x200000

def A : Nat := 0x1000

def B : Nat := 0x2000

def X : Nat := 0x4000

def Y : Nat := 0x8000

/-- A discrete press or release event for one bit position of the 32-bit
controller button mask. -/
inductive ButtonEvent where
| press (bit : Nat)
| release (bit : Nat)

/-- The bit positions set in a 32-bit button mask, in increasing order. -/
def maskBits (mask : Nat) : List Nat :=
(List.range 32).filter (fun i => mask.testBit i)

/-- Modelled from the spec: Joypad::set_pressed_buttons (declared at
input.hpp line 352, body not in the provided sources). The Button
Edge-Detector computes to_release as previous AND NOT new_mask and to_press
as new_mask AND NOT previous, emits release events for every set bit of
to_release, then press events for every set bit of to_press, and replaces
the stored mask by new_mask. The result pairs the new stored mask with the
emitted event list. -/
def set_pressed_buttons (previous newly_pressed : Nat) : Nat × List ButtonEvent :=
let to_release := previous &&& (newly_pressed ^^^ (2 ^ 32 - 1))
let to_press := newly_pressed &&& (previous ^^^ (2 ^ 32 - 1))
(newly_pressed,
  (maskBits to_release).map ButtonEvent.release ++ (maskBits to_press).map ButtonEvent.press)

theorem mem_maskBits (mask i : Nat) : i ∈ maskBits mask ↔ i < 32 ∧ mask.testBit i := by
simp [maskBits, List.mem_filter, List.mem_range]

theorem testBit_to_release (prev new_mask i : Nat) (hi : i < 32) :
    (prev &&& (new_mask ^^^ (2 ^ 32 - 1))).testBit i =
      (prev.testBit i && !(new_mask.testBit i)) := by
rw [Nat.testBit_land, Nat.testBit_xor, Nat.testBit_two_pow_sub_one]
simp [hi]

theorem maskBits_self_complement_eq_nil (mask : Nat) :
    maskBits (mask &&& (mask ^^^ (2 ^ 32 - 1))) = [] := by
rw [maskBits, List.filter_eq_nil_iff]
intro i hi
rw [List.mem_range] at hi
rw [testBit_to_release mask mask i hi]
simp

/-- Claim C2: set_pressed_buttons emits release events for exactly the set
bits of previous AND NOT new_mask, then press events for exactly the set
bits of new_mask AND NOT previous, and stores new_mask; calling it twice in
a row with the same mask emits no events on the second call. -/
theorem set_pressed_buttons_edge_detection :
    (∀ prev new_mask : Nat,
      (set_pressed_buttons prev new_mask).1 = new_mask ∧
      ∃ rs ps : List Nat,
        (set_pressed_buttons prev new_mask).2 =
          rs.map ButtonEvent.release ++ ps.map ButtonEvent.press ∧
        (∀ i, i ∈ rs ↔ i < 32 ∧ prev.testBit i ∧ ¬ new_mask.testBit i) ∧
        (∀ i, i ∈ ps ↔ i < 32 ∧ new_mask.testBit i ∧ ¬ prev.testBit i)) ∧
    (∀ mask : Nat, (set_pressed_buttons mask mask).2 = []) := by
constructor
· intro prev new_mask
  refine ⟨rfl, maskBits (prev &&& (new_mask ^^^ (2 ^ 32 - 1))),
    maskBits (new_mask &&& (prev ^^^ (2 ^ 32 - 1))), rfl, ?_, ?_⟩
  · intro i
    rw [mem_maskBits]
    constructor
    · rintro ⟨hi, hb⟩
      rw [testBit_to_release prev new_mask i hi] at hb
      simp only [Bool.and_eq_true, Bool.not_eq_true'] at hb
      exact ⟨hi, hb.1, by simp [hb.2]⟩
    · rintro ⟨hi, h1, h2⟩
      refine ⟨hi, ?_⟩
      rw [testBit_to_release prev new_mask i hi]
      simp only [Bool.not_eq_true] at h2
      simp [h1, h2]
  · intro i
    rw [mem_maskBits]
    constructor
    · rintro ⟨hi, hb⟩
      rw [testBit_to_release new_mask prev i hi] at hb
      simp only [Bool.and_eq_true, Bool.not_eq_true'] at hb
      exact ⟨hi, hb.1, by simp [hb.2]⟩
    · rintro ⟨hi, h1, h2⟩
      refine ⟨hi, ?_⟩
      rw [testBit_to_release new_mask prev i hi]
      simp only [Bool.not_eq_true] at h2
      simp [h1, h2]
· intro mask
  show (maskBits (mask &&& (mask ^^^ (2 ^ 32 - 1)))).map ButtonEvent.release ++
      (maskBits (mask &&& (mask ^^^ (2 ^ 32 - 1)))).map ButtonEvent.press = []
  rw [maskBits_self_complement_eq_nil]
  rfl

theorem set_pressed_buttons_edge_detection_witness :
    (set_pressed_buttons 5 5).2 = [] :=
set_pressed_buttons_edge_detection.2 5

/-- Claim C10: in CONTROLLER_BTN the constants HOME and SPECIAL_FLAG are both
0x0400, so a mask presses HOME exactly when it presses SPECIAL_FLAG and the
edge detector of set_pressed_buttons cannot emit an event for one of the two
without the other: adding HOME to a mask and adding SPECIAL_FLAG to a mask
produce identical stored state and identical event lists. -/
theorem home_special_flag_same_wire_value :
    HOME = 0x0400 ∧ SPECIAL_FLAG = 0x0400 ∧
    (∀ mask : Nat, (mask &&& HOME ≠ 0) ↔ (mask &&& SPECIAL_FLAG ≠ 0)) ∧
    (∀ prev base : Nat,
      set_pressed_buttons prev (base ||| HOME) =
        set_pressed_buttons prev (base ||| SPECIAL_FLAG) ∧
      set_pressed_buttons (base ||| HOME) prev =
        set_pressed_buttons (base ||| SPECIAL_FLAG) prev) :=
⟨rfl, rfl, fun _ => Iff.rfl, fun _ _ => ⟨rfl, rfl⟩⟩

theorem home_special_flag_same_wire_value_witness :
    (2 &&& HOME ≠ 0) ↔ (2 &&& SPECIAL_FLAG ≠ 0) :=
home_special_flag_same_wire_value.2.2.1 2

/-- Claim C9: the numeric wire constants of Joypad match the external
interface contract exactly: controller types UNKNOWN 0, XBOX 1, PS 2,
NINTENDO 3; capability bitflags ANALOG_TRIGGERS 0x01 through RGB_LED 0x80;
battery states NOT_KNOWN 0 through FULL 5 (the charging state, spelled
CHARGHING in the header, has value 3). -/
theorem joypad_wire_constants_exact :
    UNKNOWN = 0 ∧ XBOX = 1 ∧ PS = 2 ∧ NINTENDO = 3 ∧
    ANALOG_TRIGGERS = 0x01 ∧ RUMBLE = 0x02 ∧ TRIGGER_RUMBLE = 0x04 ∧
    TOUCHPAD = 0x08 ∧ ACCELEROMETER = 0x10 ∧ GYRO = 0x20 ∧
    BATTERY = 0x40 ∧ RGB_LED = 0x80 ∧
    NOT_KNOWN = 0 ∧ NOT_PRESENT = 1 ∧ DISCHARGING = 2 ∧ CHARGHING = 3 ∧
    NOT_CHARGING = 4 ∧ FULL = 5 := by
decide

end Joypad

namespace Mouse

/-- Modelled from the spec: the Scroll Accumulator step shared by
Mouse::vertical_scroll and Mouse::horizontal_scroll (declared at input.hpp
lines 82 and 100, bodies not in the provided sources). The pending
high-resolution distance is added to the stored per-axis remainder; the
total is split into whole 120-unit clicks (sign-preserving division, so no
click is emitted while the magnitude of the total stays below 120) and a
new remainder of magnitude below 120. Returns (emitted clicks, new
remainder). -/
def scrollStep (remainder high_res_distance : Int) : Int × Int :=
let total := remainder + high_res_distance
if 0 ≤ total then (total / 120, total % 120)
else (-((-total) / 120), -((-total) % 120))

/-- Folding the Scroll Accumulator over a whole sequence of high-resolution
deltas starting from a zero remainder, returning (total clicks emitted,
final remainder). -/
def scrollRun (deltas : List Int) : Int × Int :=
deltas.foldl (fun acc d => ((acc.1 + (scrollStep acc.2 d).1, (scrollStep acc.2 d).2))) (0, 0)

theorem scrollStep_split (remainder delta : Int) :
    (scrollStep remainder delta).1 * 120 + (scrollStep remainder delta).2 =
      remainder + delta ∧ |(scrollStep remainder delta).2| < 120 := by
rw [scrollStep]
split
· constructor
  · simp only
    omega
  · rw [abs_lt]
    simp only
    omega
· constructor
  · simp only
    omega
  · rw [abs_lt]
    simp only
    omega

theorem scrollRun_foldl (deltas : List Int) :
    ∀ clicks remainder : Int, |remainder| < 120 →
      (deltas.foldl
          (fun acc d => ((acc.1 + (scrollStep acc.2 d).1, (scrollStep acc.2 d).2)))
          (clicks, remainder)).1 * 120 +
        (deltas.foldl
          (fun acc d => ((acc.1 + (scrollStep acc.2 d).1, (scrollStep acc.2 d).2)))
          (clicks, remainder)).2 = clicks * 120 + remainder + deltas.sum ∧
      |(deltas.foldl
          (fun acc d => ((acc.1 + (scrollStep acc.2 d).1, (scrollStep acc.2 d).2)))
          (clicks, remainder)).2| < 120 := by
induction deltas with
| nil =>
  intro clicks remainder h
  simp [h]
| cons d rest ih =>
  intro clicks remainder h
  simp only [List.foldl_cons, List.sum_cons]
  have hstep := scrollStep_split remainder d
  have := ih (clicks + (scrollStep remainder d).1) (scrollStep remainder d).2 hstep.2
  constructor
  · rw [this.1]
    nlinarith [hstep.1]
  · exact this.2

/-- Claim C1: each scroll step satisfies clicks times 120 plus new remainder
equals old remainder plus pending delta with the new remainder of magnitude
below 120; no click is emitted while the magnitude of the total stays below
120; and over any sequence of deltas the emitted clicks times 120 plus the
final remainder equals the sum of all input deltas, with the final
remainder of magnitude below 120. -/
theorem mouse_scroll_accumulator :
    (∀ remainder delta : Int,
      (scrollStep remainder delta).1 * 120 + (scrollStep remainder delta).2 =
        remainder + delta ∧ |(scrollStep remainder delta).2| < 120) ∧
    (∀ remainder delta : Int, |remainder + delta| < 120 →
      (scrollStep remainder delta).1 = 0) ∧
    (∀ deltas : List Int,
      (scrollRun deltas).1 * 120 + (scrollRun deltas).2 = deltas.sum ∧
      |(scrollRun deltas).2| < 120) := by
refine ⟨scrollStep_split, ?_, ?_⟩
· intro remainder delta h
  rw [abs_lt] at h
  rw [scrollStep]
  split
  · simp only
    omega
  · simp only
    omega
· intro deltas
  have := scrollRun_foldl deltas 0 0 (by norm_num)
  rw [scrollRun]
  constructor
  · rw [this.1]
    ring
  · exact this.2

theorem mouse_scroll_accumulator_witness :
    |(50 : Int) + 60| < 120 ∧ (scrollStep 50 60).1 = 0 :=
⟨by norm_num, mouse_scroll_accumulator.2.1 50 60 (by norm_num)⟩

end Mouse

namespace Keyboard

/-- Default auto-repeat interval in milliseconds of the Keyboard constructor
(input.hpp line 244: timeout_repress_key defaults to 50ms). -/
def default_timeout_repress_key : Nat := 50

/-- The keys involved in the Unicode-input gesture: the modifiers CTRL and
SHIFT, the U key, and the sixteen hexadecimal digit keys. -/
inductive Key where
| CTRL
| SHIFT
| U
| hexDigit (value : Nat)

/-- A keystroke emitted to the OS layer. -/
inductive KeyEvent where
| press (key : Key)
| release (key : Key)

/-- Hexadecimal digits of a code point, most significant first. -/
def hexDigits (n : Nat) : List Nat :=
if _h : n < 16 then [n]
else hexDigits (n / 16) ++ [n % 16]
termination_by n
decreasing_by omega

/-- Hexadecimal parse of a digit list, most significant first. -/
def fromHex (digits : List Nat) : Nat :=
digits.foldl (fun acc d => acc * 16 + d) 0

theorem fromHex_hexDigits (n : Nat) : fromHex (hexDigits n) = n := by
induction n using Nat.strong_induction_on with
| _ n ih =>
  rw [hexDigits]
  split
  · rw [fromHex]
    simp
  · have hlt : n / 16 < n := by omega
    have hih := ih (n / 16) hlt
    rw [fromHex] at hih ⊢
    rw [List.foldl_append]
    simp only [List.foldl_cons, List.foldl_nil]
    rw [hih]
    omega

/-- The values of the hex-digit keys pressed in an emitted event list, in
order. -/
def pressedHexDigits (events : List KeyEvent) : List Nat :=
events.flatMap (fun e =>
  match e with
  | KeyEvent.press (Key.hexDigit d) => [d]
  | _ => [])

/-- Modelled from the spec: the Unicode-to-Keystroke Encoder used by
Keyboard::paste_utf (declared at input.hpp line 270, body not in the
provided sources) for a single Unicode scalar value: press CTRL, SHIFT and
U, then press and release the key of each hexadecimal digit of the code
point in order, then release CTRL, SHIFT and U. -/
def encodeCodePoint (code_point : Nat) : List KeyEvent :=
[KeyEvent.press Key.CTRL, KeyEvent.press Key.SHIFT, KeyEvent.press Key.U]
  ++ (hexDigits code_point).flatMap
      (fun d => [KeyEvent.press (Key.hexDigit d), KeyEvent.release (Key.hexDigit d)])
  ++ [KeyEvent.release Key.CTRL, KeyEvent.release Key.SHIFT, KeyEvent.release Key.U]

/-- Modelled from the spec: Keyboard::paste_utf (declared at input.hpp line
270, body not in the provided sources) processes the received UTF-32 code
points one at a time in input order, emitting the encoder sequence of
each. -/
def paste_utf (utf32 : List Nat) : List KeyEvent :=
utf32.flatMap encodeCodePoint

theorem pressedHexDigits_digitPart (ds : List Nat) :
    pressedHexDigits (ds.flatMap
      (fun d => [KeyEvent.press (Key.hexDigit d), KeyEvent.release (Key.hexDigit d)])) = ds := by
induction ds with
| nil => rfl
| cons d rest ih =>
  rw [List.flatMap_cons, pressedHexDigits, List.flatMap_append]
  rw [pressedHexDigits] at ih
  rw [ih]
  rfl

theorem pressedHexDigits_encodeCodePoint (n : Nat) :
    pressedHexDigits (encodeCodePoint n) = hexDigits n := by
rw [encodeCodePoint, pressedHexDigits, List.flatMap_append, List.flatMap_append]
have h := pressedHexDigits_digitPart (hexDigits n)
rw [pressedHexDigits] at h
rw [h]
simp

theorem hexDigits_pileOfPoo : hexDigits 0x1F4A9 = [0x1, 0xF, 0x4, 0xA, 0x9] := by
simp [hexDigits]

/-- Claim C3: paste_utf processes code points one at a time in input order;
for each code point the emitted sequence is press CTRL, press SHIFT, press
U, then press and release of each hexadecimal digit key of the code point
in order, then release of CTRL, SHIFT and U; and parsing the emitted hex
digits back as hexadecimal yields the original code point, with U+1F4A9
producing digits 1 F 4 A 9. -/
theorem keyboard_paste_utf_unicode :
    (∀ (c : Nat) (cs : List Nat), paste_utf (c :: cs) = encodeCodePoint c ++ paste_utf cs) ∧
    (∀ n : Nat, encodeCodePoint n =
      [KeyEvent.press Key.CTRL, KeyEvent.press Key.SHIFT, KeyEvent.press Key.U]
        ++ (hexDigits n).flatMap
            (fun d => [KeyEvent.press (Key.hexDigit d), KeyEvent.release (Key.hexDigit d)])
        ++ [KeyEvent.release Key.CTRL, KeyEvent.release Key.SHIFT, KeyEvent.release Key.U]) ∧
    (∀ n : Nat, fromHex (pressedHexDigits (encodeCodePoint n)) = n) ∧
    pressedHexDigits (encodeCodePoint 0x1F4A9) = [0x1, 0xF, 0x4, 0xA, 0x9] := by
refine ⟨?_, fun _ => rfl, ?_, ?_⟩
· intro c cs
  rw [paste_utf, List.flatMap_cons]
  rfl
· intro n
  rw [pressedHexDigits_encodeCodePoint, fromHex_hexDigits]
· rw [pressedHexDigits_encodeCodePoint, hexDigits_pileOfPoo]

/-- A caller operation on the Keyboard held-key state; tick stands for one
firing of the repeat timer. -/
inductive KeyOp where
| press (key_code : Int)
| release (key_code : Int)
| tick

/-- A key assertion delivered to the OS layer. -/
inductive KeyAssert where
| down (key_code : Int)
| up (key_code : Int)

/-- Modelled from the spec: one transition of the Keyboard held-key state
(Keyboard::press, Keyboard::release, and the recurring repeat timer of the
Keyboard constructor; declared at input.hpp lines 244-257, bodies not in
the provided sources). Press adds the key code to the held set and asserts
it down; release removes the key code and asserts it up exactly once; each
timer tick re-asserts every held key down. -/
def keyboardStep (held : List Int) : KeyOp → List Int × List KeyAssert
| KeyOp.press k => (if k ∈ held then held else k :: held, [KeyAssert.down k])
| KeyOp.release k => (held.filter (fun h => h ≠ k), [KeyAssert.up k])
| KeyOp.tick => (held, held.map KeyAssert.down)

/-- Runs a sequence of keyboard operations from a held-key set,
concatenating the emitted OS assertions. -/
def keyboardRun (held : List Int) : List KeyOp → List Int × List KeyAssert
| [] => (held, [])
| op :: ops =>
  ((keyboardRun (keyboardStep held op).1 ops).1,
    (keyboardStep held op).2 ++ (keyboardRun (keyboardStep held op).1 ops).2)

theorem keyboardStep_preserves_absent (k : Int) (held : List Int) (op : KeyOp)
    (hk : k ∉ held) (hop : op ≠ KeyOp.press k) :
    k ∉ (keyboardStep held op).1 ∧ KeyAssert.down k ∉ (keyboardStep held op).2 := by
cases op with
| press k2 =>
  have hne : k2 ≠ k := fun he => hop (by rw [he])
  constructor
  · simp only [keyboardStep]
    split
    · exact hk
    · intro hmem
      rcases List.mem_cons.mp hmem with h | h
      · exact hne h.symm
      · exact hk h
  · simp only [keyboardStep, List.mem_singleton]
    intro he
    cases he
    exact hne rfl
| release k2 =>
  constructor
  · simp only [keyboardStep]
    intro hmem
    exact hk (List.mem_of_mem_filter hmem)
  · simp [keyboardStep]
| tick =>
  constructor
  · exact hk
  · simp only [keyboardStep, List.mem_map]
    rintro ⟨k2, hk2, he⟩
    cases he
    exact hk hk2

theorem keyboardRun_no_repress (k : Int) :
    ∀ (ops : List KeyOp) (held : List Int), k ∉ held →
      (∀ op ∈ ops, op ≠ KeyOp.press k) →
      KeyAssert.down k ∉ (keyboardRun held ops).2 ∧ k ∉ (keyboardRun held ops).1 := by
intro ops
induction ops with
| nil =>
  intro held hk _
  exact ⟨by simp [keyboardRun], hk⟩
| cons op rest ih =>
  intro held hk hops
  have hop : op ≠ KeyOp.press k := hops op (List.mem_cons_self op rest)
  have hrest : ∀ o ∈ rest, o ≠ KeyOp.press k := fun o ho => hops o (List.mem_cons_of_mem op ho)
  have hstep := keyboardStep_preserves_absent k held op hk hop
  have htail := ih (keyboardStep held op).1 hstep.1 hrest
  constructor
  · simp only [keyboardRun, List.mem_append]
    rintro (h | h)
    · exact hstep.2 h
    · exact htail.1 h
  · exact htail.2

/-- Claim C7: every repeat-timer tick re-asserts each held key and keeps it
held (so a key that stays held is re-asserted at least once per repeat
interval, whose default is 50 milliseconds); release removes the key code
from the held set and emits exactly one release assertion; and once a key
code is not held, any operation sequence that never presses it again emits
no press assertion of it and never puts it back in the held set. -/
theorem keyboard_hold_repeat_release :
    default_timeout_repress_key = 50 ∧
    (∀ (held : List Int) (k : Int), k ∈ held →
      KeyAssert.down k ∈ (keyboardStep held KeyOp.tick).2 ∧
      k ∈ (keyboardStep held KeyOp.tick).1) ∧
    (∀ (held : List Int) (k : Int),
      (keyboardStep held (KeyOp.release k)).2 = [KeyAssert.up k] ∧
      k ∉ (keyboardStep held (KeyOp.release k)).1) ∧
    (∀ (ops : List KeyOp) (held : List Int) (k : Int), k ∉ held →
      (∀ op ∈ ops, op ≠ KeyOp.press k) →
      KeyAssert.down k ∉ (keyboardRun held ops).2 ∧ k ∉ (keyboardRun held ops).1) := by
refine ⟨rfl, ?_, ?_, fun ops held k hk hops => keyboardRun_no_repress k ops held hk hops⟩
· intro held k hmem
  constructor
  · show KeyAssert.down k ∈ held.map KeyAssert.down
    exact List.mem_map.mpr ⟨k, hmem, rfl⟩
  · exact hmem
· intro held k
  refine ⟨rfl, ?_⟩
  simp only [keyboardStep]
  intro hmem
  have := List.mem_filter.mp hmem
  simp at this

theorem keyboard_hold_repeat_release_witness :
    (3 : Int) ∈ [(3 : Int)] ∧
      KeyAssert.down 3 ∈ (keyboardStep [(3 : Int)] KeyOp.tick).2 ∧
      (3 : Int) ∈ (keyboardStep [(3 : Int)] KeyOp.tick).1 :=
⟨by simp, keyboard_hold_repeat_release.2.1 [(3 : Int)] 3 (by simp)⟩

end Keyboard

namespace Touch

/-- The data of one active finger contact: the reported normalised
coordinates and pressure. -/
structure FingerState where
  x : Rat
  y : Rat
  pressure : Rat

/-- The Multi-Touch Tracker state shared by Trackpad, TouchScreen and the
Joypad touchpad sub-surface: a fixed number of finger slots, each either
inactive (none) or active with its contact data. -/
structure TouchState where
  num_slots : Nat
  slots : Nat → Option FingerState

/-- A touch event emitted to the OS layer. -/
inductive TouchEvent where
| touch_down (slot : Nat) (x y pressure : Rat)
| touch_move (slot : Nat) (x y pressure : Rat)
| touch_up (slot : Nat)

/-- Modelled from the spec: Trackpad::place_finger and
TouchScreen::place_finger (declared at input.hpp lines 134 and 169, bodies
not in the provided sources). An out-of-range slot or an out-of-range
coordinate or pressure is rejected; placing on an inactive slot emits
touch-down and placing on an active slot emits touch-move; the slot becomes
active with the reported values. -/
def place_finger (s : TouchState) (finger_nr : Nat) (x y pressure : Rat) :
    Except Unit (TouchState × List TouchEvent) :=
if finger_nr < s.num_slots ∧ 0 ≤ x ∧ x ≤ 1 ∧ 0 ≤ y ∧ y ≤ 1 ∧ 0 ≤ pressure ∧ pressure ≤ 1 then
  Except.ok
    ({ s with slots := fun i => if i = finger_nr then some ⟨x, y, pressure⟩ else s.slots i },
      match s.slots finger_nr with
      | none => [TouchEvent.touch_down finger_nr x y pressure]
      | some _ => [TouchEvent.touch_move finger_nr x y pressure])
else Except.error ()

/-- Modelled from the spec: Trackpad::release_finger and
TouchScreen::release_finger (declared at input.hpp lines 136 and 171,
bodies not in the provided sources). An out-of-range slot is rejected;
releasing an active slot emits touch-up and marks it inactive; releasing an
already-inactive slot is a no-op, not an error. -/
def release_finger (s : TouchState) (finger_nr : Nat) :
    Except Unit (TouchState × List TouchEvent) :=
if finger_nr < s.num_slots then
  match s.slots finger_nr with
  | some _ =>
    Except.ok ({ s with slots := fun i => if i = finger_nr then none else s.slots i },
      [TouchEvent.touch_up finger_nr])
  | none => Except.ok (s, [])
else Except.error ()

/-- Claim C5: releasing an in-range finger slot that is already inactive is
a no-op and not an error; in particular placing a finger on slot 0 and then
releasing slot 0 twice emits exactly one touch-down and one touch-up, with
the second release producing no event and no error and leaving the slot
inactive. -/
theorem release_finger_inactive_noop :
    (∀ (s : TouchState) (finger_nr : Nat), finger_nr < s.num_slots →
      s.slots finger_nr = none → release_finger s finger_nr = Except.ok (s, [])) ∧
    (∀ (s : TouchState) (x y p : Rat), 0 < s.num_slots → s.slots 0 = none →
      0 ≤ x → x ≤ 1 → 0 ≤ y → y ≤ 1 → 0 ≤ p → p ≤ 1 →
      ∃ s1 s2 : TouchState,
        place_finger s 0 x y p = Except.ok (s1, [TouchEvent.touch_down 0 x y p]) ∧
        release_finger s1 0 = Except.ok (s2, [TouchEvent.touch_up 0]) ∧
        release_finger s2 0 = Except.ok (s2, []) ∧ s2.slots 0 = none) := by
constructor
· intro s finger_nr hlt hnone
  rw [release_finger, if_pos hlt, hnone]
· intro s x y p hn h0 hx0 hx1 hy0 hy1 hp0 hp1
  refine ⟨{ s with slots := fun i => if i = 0 then some ⟨x, y, p⟩ else s.slots i },
    { s with slots := fun i => if i = 0 then none
        else if i = 0 then some (⟨x, y, p⟩ : FingerState) else s.slots i }, ?_, ?_, ?_, ?_⟩
  · rw [place_finger, if_pos ⟨hn, hx0, hx1, hy0, hy1, hp0, hp1⟩, h0]
  · rw [release_finger, if_pos (show (0 : Nat) < _ from hn)]
    rfl
  · rw [release_finger, if_pos (show (0 : Nat) < _ from hn)]
    rfl
  · rfl

theorem release_finger_inactive_noop_witness :
    ∃ s1 s2 : TouchState,
      place_finger ⟨2, fun _ => none⟩ 0 0 0 0 = Except.ok (s1, [TouchEvent.touch_down 0 0 0 0]) ∧
      release_finger s1 0 = Except.ok (s2, [TouchEvent.touch_up 0]) ∧
      release_finger s2 0 = Except.ok (s2, []) ∧ s2.slots 0 = none :=
release_finger_inactive_noop.2 ⟨2, fun _ => none⟩ 0 0 0 (by norm_num) rfl
  (by norm_num) (by norm_num) (by norm_num) (by norm_num) (by norm_num) (by norm_num)

end Touch

namespace Mouse

/-- The absolute cursor position kept by the Mouse, as the fraction of the
screen reported by move_abs. -/
structure CursorPos where
  x : Rat
  y : Rat

/-- Modelled from the spec: Mouse::move_abs (declared at input.hpp line 52,
body not in the provided sources). The target position is the given
position as a fraction of the provided screen size; a zero screen width or
height makes the ratio undefined, so the call is rejected as a caller
contract violation and the cursor does not move. Returns the resulting
cursor position and whether the call was accepted. -/
def move_abs (cursor : CursorPos) (x y screen_width screen_height : Int) :
    CursorPos × Bool :=
if screen_width = 0 ∨ screen_height = 0 then (cursor, false)
else ({ x := (x : Rat) / (screen_width : Rat), y := (y : Rat) / (screen_height : Rat) }, true)

/-- Claim C6: calling move_abs with a zero screen width or a zero screen
height is rejected: the call reports failure, the cursor position is
unchanged, and the undefined ratio is never computed. -/
theorem move_abs_zero_dimension_rejected :
    ∀ (cursor : CursorPos) (x y screen_width screen_height : Int),
      screen_width = 0 ∨ screen_height = 0 →
      move_abs cursor x y screen_width screen_height = (cursor, false) := by
intro cursor x y w h hz
rw [move_abs, if_pos hz]

theorem move_abs_zero_dimension_rejected_witness :
    move_abs ⟨0, 0⟩ 100 100 0 1080 = (⟨0, 0⟩, false) :=
move_abs_zero_dimension_rejected ⟨0, 0⟩ 100 100 0 1080 (Or.inl rfl)

end Mouse

namespace PenTablet

/-- The tool types of PenTablet::TOOL_TYPE (input.hpp lines 198-206). -/
inductive TOOL_TYPE where
| PEN
| ERASER
| BRUSH
| PENCIL
| AIRBRUSH
| TOUCH
| SAME_AS_BEFORE

/-- The PenTablet state relevant to tool reporting: the last real
(non-SAME_AS_BEFORE) tool type reported, if any. -/
structure PenTabletState where
  last_tool : Option TOOL_TYPE

/-- Modelled from the spec: the tool-type resolution of
PenTablet::place_tool (declared at input.hpp line 224, body not in the
provided sources). A real tool type is reported as given and remembered;
SAME_AS_BEFORE reuses the last real tool type reported, and when no prior
real tool type exists the call is a caller contract violation and is
rejected rather than reporting a default tool. Returns the new state and
the tool type reported to the OS layer. -/
def place_tool (s : PenTabletState) (tool_type : TOOL_TYPE) :
    Except Unit (PenTabletState × TOOL_TYPE) :=
match tool_type with
| TOOL_TYPE.SAME_AS_BEFORE =>
  match s.last_tool with
  | some t => Except.ok ({ last_tool := some t }, t)
  | none => Except.error ()
| t => Except.ok ({ last_tool := some t }, t)

/-- Claim C8: place_tool with SAME_AS_BEFORE reuses the last real tool type
reported by a prior call when one exists, and is rejected as a contract
violation when no prior real tool type exists; a real tool type is reported
as given and becomes the remembered last tool. -/
theorem place_tool_same_as_before :
    (∀ (s : PenTabletState) (t0 : TOOL_TYPE), s.last_tool = some t0 →
      place_tool s TOOL_TYPE.SAME_AS_BEFORE = Except.ok ({ last_tool := some t0 }, t0)) ∧
    (∀ s : PenTabletState, s.last_tool = none →
      place_tool s TOOL_TYPE.SAME_AS_BEFORE = Except.error ()) ∧
    (∀ (s : PenTabletState) (t : TOOL_TYPE), t ≠ TOOL_TYPE.SAME_AS_BEFORE →
      place_tool s t = Except.ok ({ last_tool := some t }, t)) := by
refine ⟨?_, ?_, ?_⟩
· intro s t0 h
  rw [place_tool, h]
· intro s h
  rw [place_tool, h]
· intro s t ht
  cases t with
  | SAME_AS_BEFORE => exact absurd rfl ht
  | _ => rfl

theorem place_tool_same_as_before_witness :
    place_tool { last_tool := some TOOL_TYPE.PEN } TOOL_TYPE.SAME_AS_BEFORE =
      Except.ok ({ last_tool := some TOOL_TYPE.PEN }, TOOL_TYPE.PEN) :=
place_tool_same_as_before.1 { last_tool := some TOOL_TYPE.PEN } TOOL_TYPE.PEN rfl

end PenTablet

namespace Joypad

/-- The Joypad shared state relevant to asynchronous feedback: the immutable
capability bitmask chosen at construction and the registered rumble and LED
callbacks, identified by numbers. -/
structure JoypadState where
  capabilities : Nat
  on_rumble : Option Nat
  on_led : Option Nat

/-- An operation on a Joypad: the caller registering a rumble or LED
callback, or the simulated hardware consumer sending a rumble or LED
command to the background listener. -/
inductive JoyOp where
| registerRumble (callback : Nat)
| registerLed (callback : Nat)
| hwRumble (low_freq high_freq : Nat)
| hwLed (r g b : Nat)

/-- An invocation of a caller-registered callback by the background
listener. -/
inductive CallbackCall where
| rumble (callback low_freq high_freq : Nat)
| led (callback r g b : Nat)

/-- True exactly for rumble callback invocations. -/
def CallbackCall.isRumble : CallbackCall → Bool
| CallbackCall.rumble _ _ _ => true
| CallbackCall.led _ _ _ _ => false

/-- True exactly for LED callback invocations. -/
def CallbackCall.isLed : CallbackCall → Bool
| CallbackCall.rumble _ _ _ => false
| CallbackCall.led _ _ _ _ => true

/-- Modelled from the spec: Joypad construction (input.hpp line 303) stores
the immutable capability bitmask; no callback is registered yet. -/
def joypadInit (capabilities : Nat) : JoypadState :=
{ capabilities := capabilities, on_rumble := none, on_led := none }

/-- Modelled from the spec: Joypad::set_on_rumble and Joypad::set_on_led
(declared at input.hpp lines 363 and 393, bodies not in the provided
sources) register the callback only when the RUMBLE, respectively RGB_LED,
capability bit is set and are a no-op otherwise; a hardware rumble or LED
command makes the background listener invoke the registered callback, if
any. -/
def joypadStep (s : JoypadState) : JoyOp → JoypadState × List CallbackCall
| JoyOp.registerRumble cb =>
  if s.capabilities &&& RUMBLE ≠ 0 then ({ s with on_rumble := some cb }, [])
  else (s, [])
| JoyOp.registerLed cb =>
  if s.capabilities &&& RGB_LED ≠ 0 then ({ s with on_led := some cb }, [])
  else (s, [])
| JoyOp.hwRumble low_freq high_freq =>
  (s, match s.on_rumble with
    | some cb => [CallbackCall.rumble cb low_freq high_freq]
    | none => [])
| JoyOp.hwLed r g b =>
  (s, match s.on_led with
    | some cb => [CallbackCall.led cb r g b]
    | none => [])

/-- Runs a sequence of Joypad operations, concatenating the callback
invocations made by the background listener. -/
def joypadRun (s : JoypadState) : List JoyOp → JoypadState × List CallbackCall
| [] => (s, [])
| op :: ops =>
  ((joypadRun (joypadStep s op).1 ops).1,
    (joypadStep s op).2 ++ (joypadRun (joypadStep s op).1 ops).2)

theorem joypadStep_rumble_gated (s : JoypadState) (op : JoyOp)
    (hcap : s.capabilities &&& RUMBLE = 0) (hcb : s.on_rumble = none) :
    (joypadStep s op).1.capabilities = s.capabilities ∧
    (joypadStep s op).1.on_rumble = none ∧
    ∀ c ∈ (joypadStep s op).2, c.isRumble = false := by
cases op with
| registerRumble cb =>
  rw [joypadStep, if_neg (by simp [hcap])]
  exact ⟨rfl, hcb, by simp⟩
| registerLed cb =>
  rw [joypadStep]
  split
  · exact ⟨rfl, hcb, by simp⟩
  · exact ⟨rfl, hcb, by simp⟩
| hwRumble low_freq high_freq =>
  refine ⟨rfl, hcb, ?_⟩
  simp only [joypadStep, hcb]
  simp
| hwLed r g b =>
  refine ⟨rfl, hcb, ?_⟩
  cases hled : s.on_led <;> simp [joypadStep, hled, CallbackCall.isLed, CallbackCall.isRumble]

theorem joypadStep_led_gated (s : JoypadState) (op : JoyOp)
    (hcap : s.capabilities &&& RGB_LED = 0) (hcb : s.on_led = none) :
    (joypadStep s op).1.capabilities = s.capabilities ∧
    (joypadStep s op).1.on_led = none ∧
    ∀ c ∈ (joypadStep s op).2, c.isLed = false := by
cases op with
| registerLed cb =>
  rw [joypadStep, if_neg (by simp [hcap])]
  exact ⟨rfl, hcb, by simp⟩
| registerRumble cb =>
  rw [joypadStep]
  split
  · exact ⟨rfl, hcb, by simp⟩
  · exact ⟨rfl, hcb, by simp⟩
| hwLed r g b =>
  refine ⟨rfl, hcb, ?_⟩
  simp only [joypadStep, hcb]
  simp
| hwRumble low_freq high_freq =>
  refine ⟨rfl, hcb, ?_⟩
  cases hr : s.on_rumble <;> simp [joypadStep, hr, CallbackCall.isLed, CallbackCall.isRumble]

theorem joypadRun_rumble_gated :
    ∀ (ops : List JoyOp) (s : JoypadState), s.capabilities &&& RUMBLE = 0 →
      s.on_rumble = none →
      (joypadRun s ops).1.on_rumble = none ∧
      ∀ c ∈ (joypadRun s ops).2, c.isRumble = false := by
intro ops
induction ops with
| nil =>
  intro s _ hcb
  exact ⟨hcb, by simp [joypadRun]⟩
| cons op rest ih =>
  intro s hcap hcb
  have hstep := joypadStep_rumble_gated s op hcap hcb
  have htail := ih (joypadStep s op).1 (by rw [hstep.1]; exact hcap) hstep.2.1
  constructor
  · exact htail.1
  · intro c hc
    simp only [joypadRun, List.mem_append] at hc
    rcases hc with h | h
    · exact hstep.2.2 c h
    · exact htail.2 c h

theorem joypadRun_led_gated :
    ∀ (ops : List JoyOp) (s : JoypadState), s.capabilities &&& RGB_LED = 0 →
      s.on_led = none →
      (joypadRun s ops).1.on_led = none ∧
      ∀ c ∈ (joypadRun s ops).2, c.isLed = false := by
intro ops
induction ops with
| nil =>
  intro s _ hcb
  exact ⟨hcb, by simp [joypadRun]⟩
| cons op rest ih =>
  intro s hcap hcb
  have hstep := joypadStep_led_gated s op hcap hcb
  have htail := ih (joypadStep s op).1 (by rw [hstep.1]; exact hcap) hstep.2.1
  constructor
  · exact htail.1
  · intro c hc
    simp only [joypadRun, List.mem_append] at hc
    rcases hc with h | h
    · exact hstep.2.2 c h
    · exact htail.2 c h

/-- Claim C4: for a Joypad constructed with a capability bitmask in which
RUMBLE is unset, set_on_rumble is a no-op (the state is unchanged and
nothing is registered) and over any operation sequence no rumble callback
invocation ever occurs, whatever rumble commands the simulated hardware
consumer sends; the same never-fires guarantee holds for set_on_led when
RGB_LED is unset. -/
theorem joypad_callback_capability_gating :
    (∀ (s : JoypadState) (cb : Nat), s.capabilities &&& RUMBLE = 0 →
      joypadStep s (JoyOp.registerRumble cb) = (s, [])) ∧
    (∀ (s : JoypadState) (cb : Nat), s.capabilities &&& RGB_LED = 0 →
      joypadStep s (JoyOp.registerLed cb) = (s, [])) ∧
    (∀ (capabilities : Nat) (ops : List JoyOp), capabilities &&& RUMBLE = 0 →
      (joypadRun (joypadInit capabilities) ops).1.on_rumble = none ∧
      ∀ c ∈ (joypadRun (joypadInit capabilities) ops).2, c.isRumble = false) ∧
    (∀ (capabilities : Nat) (ops : List JoyOp), capabilities &&& RGB_LED = 0 →
      (joypadRun (joypadInit capabilities) ops).1.on_led = none ∧
      ∀ c ∈ (joypadRun (joypadInit capabilities) ops).2, c.isLed = false) := by
refine ⟨?_, ?_, ?_, ?_⟩
· intro s cb hcap
  rw [joypadStep, if_neg (by simp [hcap])]
· intro s cb hcap
  rw [joypadStep, if_neg (by simp [hcap])]
· intro capabilities ops hcap
  exact joypadRun_rumble_gated ops (joypadInit capabilities) hcap rfl
· intro capabilities ops hcap
  exact joypadRun_led_gated ops (joypadInit capabilities) hcap rfl

theorem joypad_callback_capability_gating_witness :
    (1 : Nat) &&& RUMBLE = 0 ∧
      ((joypadRun (joypadInit 1) [JoyOp.registerRumble 7, JoyOp.hwRumble 1 2]).1.on_rumble =
        none ∧
      ∀ c ∈ (joypadRun (joypadInit 1) [JoyOp.registerRumble 7, JoyOp.hwRumble 1 2]).2,
        c.isRumble = false) :=
⟨by decide,
  joypad_callback_capability_gating.2.2.1 1 [JoyOp.registerRumble 7, JoyOp.hwRumble 1 2]
    (by decide)⟩

end Joypad

end Wolf.Core.Input
